import Mathlib

/-!
Verification of the ViLT fast image processor
(`src/transformers/models/vilt/image_processing_vilt_fast.py`).

The development shallowly embeds the `_preprocess` pipeline:
the aspect-preserving resize arithmetic (source lines 113-141), the
padding and pixel-mask phase (lines 163-211), and the shape
grouping/reordering helpers.  Python floats are modelled by exact
rationals `ℚ`; Python `int` by `ℤ`; tensor spatial shapes by `ℕ`.
-/

namespace ViltFast

/-- Constant from source line 48: `MAX_LONGER_EDGE = 1333`. -/
def MAX_LONGER_EDGE : ℕ := 1333

/-- Constant from source line 49: `MAX_SHORTER_EDGE = 800`. -/
def MAX_SHORTER_EDGE : ℕ := 800

/-- Python `int(x)` applied to a float, modelled on exact rationals.
Python truncates toward zero; every call site below passes a
nonnegative argument, where truncation agrees with the floor, so the
conversion is modelled by `Rat.floor`. -/
def pyInt (q : ℚ) : ℤ := q.floor

/-- Source line 117: `longer = int(MAX_LONGER_EDGE / MAX_SHORTER_EDGE * shorter)`. -/
def longerEdge (shorter : ℕ) : ℤ :=
  pyInt ((MAX_LONGER_EDGE : ℚ) / (MAX_SHORTER_EDGE : ℚ) * (shorter : ℚ))

/-- Source lines 123-128: the pre-clamp target dimensions.
`if heights < widths: new_heights = shorter; new_widths = widths * (shorter / heights)`
`else: new_heights = heights * (shorter / widths); new_widths = shorter`. -/
def targetDims (shorter heights widths : ℕ) : ℚ × ℚ :=
  if heights < widths then
    ((shorter : ℚ), (widths : ℚ) * ((shorter : ℚ) / (heights : ℚ)))
  else
    ((heights : ℚ) * ((shorter : ℚ) / (widths : ℚ)), (shorter : ℚ))

/-- Source lines 131-134: `if max(new_heights, new_widths) > longer:` scale
both dimensions by `longer / max(new_heights, new_widths)`. -/
def clampDims (longer : ℤ) (nhw : ℚ × ℚ) : ℚ × ℚ :=
  if max nhw.1 nhw.2 > (longer : ℚ) then
    (nhw.1 * ((longer : ℚ) / max nhw.1 nhw.2), nhw.2 * ((longer : ℚ) / max nhw.1 nhw.2))
  else nhw

/-- Source lines 136-137: `new_heights = int(new_heights + 0.5)` and likewise
for the width, applied after the clamp of lines 131-134. -/
def roundedDims (shorter heights widths : ℕ) : ℤ × ℤ :=
  let nhw := clampDims (longerEdge shorter) (targetDims shorter heights widths)
  (pyInt (nhw.1 + 1/2), pyInt (nhw.2 + 1/2))

/-- Source lines 139-141: `new_heights // size_divisor * size_divisor`
(Python floor division, `Int.fdiv`). -/
def divisorFloor (size_divisor : ℕ) (n : ℤ) : ℤ :=
  n.fdiv (size_divisor : ℤ) * (size_divisor : ℤ)

/-- Source lines 117-141 assembled: the output spatial size of the resize
step for a shape group of height `heights` and width `widths`, with target
shortest edge `shorter` and optional divisor alignment `size_divisor`. -/
def resizeOutputSize (shorter : ℕ) (size_divisor : Option ℕ) (heights widths : ℕ) : ℤ × ℤ :=
  match size_divisor with
  | some d => (divisorFloor d (roundedDims shorter heights widths).1,
               divisorFloor d (roundedDims shorter heights widths).2)
  | none => roundedDims shorter heights widths

/-- Following the spec's words (section 4.2 step 1): `round(...)` as
round-half-up, for comparison with the source's `int(...)` truncation. -/
def specRound (x : ℚ) : ℤ := ⌊x + 1/2⌋

theorem pyInt_eq_floor (q : ℚ) : pyInt q = ⌊q⌋ := by
  unfold pyInt
  rw [Rat.floor_def', Rat.floor_def]

theorem pyInt_nonneg {q : ℚ} (hq : 0 ≤ q) : 0 ≤ pyInt q := by
  rw [pyInt_eq_floor]
  exact Int.floor_nonneg.mpr hq

theorem longerEdge_nonneg (S : ℕ) : 0 ≤ longerEdge S := by
  apply pyInt_nonneg
  positivity

theorem pyInt_half_le {x : ℚ} {L : ℤ} (hL : x ≤ (L : ℚ)) : pyInt (x + 1/2) ≤ L := by
  rw [pyInt_eq_floor]
  calc ⌊x + 1/2⌋ ≤ ⌊(L : ℚ) + 1/2⌋ := Int.floor_le_floor (by linarith)
    _ = L + ⌊(1/2 : ℚ)⌋ := Int.floor_int_add L (1/2 : ℚ)
    _ = L := by norm_num

theorem targetDims_nonneg (S h w : ℕ) :
    0 ≤ (targetDims S h w).1 ∧ 0 ≤ (targetDims S h w).2 := by
  unfold targetDims
  split <;> constructor <;> positivity

theorem clampDims_bounds {L : ℤ} {t : ℚ × ℚ} (hL : 0 ≤ L) (h1 : 0 ≤ t.1) (h2 : 0 ≤ t.2) :
    0 ≤ (clampDims L t).1 ∧ 0 ≤ (clampDims L t).2 ∧
      (clampDims L t).1 ≤ (L : ℚ) ∧ (clampDims L t).2 ≤ (L : ℚ) := by
  have hL' : (0 : ℚ) ≤ (L : ℚ) := by exact_mod_cast hL
  unfold clampDims
  split
  case isTrue hgt =>
    have hmaxpos : 0 < max t.1 t.2 := lt_of_le_of_lt hL' hgt
    have hscale : 0 ≤ (L : ℚ) / max t.1 t.2 := div_nonneg hL' (le_of_lt hmaxpos)
    refine ⟨mul_nonneg h1 hscale, mul_nonneg h2 hscale, ?_, ?_⟩
    · calc t.1 * ((L : ℚ) / max t.1 t.2)
          ≤ max t.1 t.2 * ((L : ℚ) / max t.1 t.2) :=
            mul_le_mul_of_nonneg_right (le_max_left _ _) hscale
        _ = (L : ℚ) := mul_div_cancel₀ _ (ne_of_gt hmaxpos)
    · calc t.2 * ((L : ℚ) / max t.1 t.2)
          ≤ max t.1 t.2 * ((L : ℚ) / max t.1 t.2) :=
            mul_le_mul_of_nonneg_right (le_max_right _ _) hscale
        _ = (L : ℚ) := mul_div_cancel₀ _ (ne_of_gt hmaxpos)
  case isFalse hle =>
    push_neg at hle
    exact ⟨h1, h2, le_trans (le_max_left _ _) hle, le_trans (le_max_right _ _) hle⟩

theorem roundedDims_bounds (S h w : ℕ) :
    0 ≤ (roundedDims S h w).1 ∧ 0 ≤ (roundedDims S h w).2 ∧
      (roundedDims S h w).1 ≤ longerEdge S ∧ (roundedDims S h w).2 ≤ longerEdge S := by
  obtain ⟨ht1, ht2⟩ := targetDims_nonneg S h w
  obtain ⟨hc1, hc2, hb1, hb2⟩ := clampDims_bounds (longerEdge_nonneg S) ht1 ht2
  unfold roundedDims
  refine ⟨pyInt_nonneg (by linarith), pyInt_nonneg (by linarith),
    pyInt_half_le hb1, pyInt_half_le hb2⟩

theorem divisorFloor_le {d : ℕ} (hd : 0 < d) {n : ℤ} (hn : 0 ≤ n) : divisorFloor d n ≤ n := by
  unfold divisorFloor
  have hd' : (0 : ℤ) ≤ (d : ℤ) := by positivity
  have hmod : 0 ≤ n.fmod (d : ℤ) := Int.fmod_nonneg hn hd'
  have hdecomp := Int.fdiv_add_fmod n (d : ℤ)
  have hcomm : n.fdiv (d : ℤ) * (d : ℤ) = (d : ℤ) * n.fdiv (d : ℤ) := mul_comm _ _
  linarith

theorem divisorFloor_nonneg {d : ℕ} {n : ℤ} (hn : 0 ≤ n) : 0 ≤ divisorFloor d n := by
  unfold divisorFloor
  exact mul_nonneg (Int.fdiv_nonneg hn (by positivity)) (by positivity)

theorem dvd_divisorFloor (d : ℕ) (n : ℤ) : (d : ℤ) ∣ divisorFloor d n := by
  unfold divisorFloor
  exact dvd_mul_left _ _

theorem longerEdge_le_specRound (S : ℕ) :
    longerEdge S ≤ specRound ((MAX_LONGER_EDGE : ℚ) / (MAX_SHORTER_EDGE : ℚ) * (S : ℚ)) := by
  unfold longerEdge specRound
  rw [pyInt_eq_floor]
  exact Int.floor_le_floor (by linarith)

theorem longerEdge_zero : longerEdge 0 = 0 := by
  unfold longerEdge
  rw [pyInt_eq_floor]
  norm_num

theorem targetDims_zero (h w : ℕ) : targetDims 0 h w = (0, 0) := by
  unfold targetDims
  split <;> simp

theorem clampDims_zero : clampDims 0 (0, 0) = (0, 0) := by
  unfold clampDims
  norm_num

theorem pyInt_half : pyInt ((0 : ℚ) + 1/2) = 0 := by
  rw [pyInt_eq_floor]
  rw [Int.floor_eq_iff] <;> norm_num

theorem roundedDims_zero (h w : ℕ) : roundedDims 0 h w = (0, 0) := by
  unfold roundedDims
  rw [longerEdge_zero, targetDims_zero, clampDims_zero]
  show (pyInt ((0 : ℚ) + 1/2), pyInt ((0 : ℚ) + 1/2)) = (0, 0)
  rw [pyInt_half]

/-- C1 counterexample.  The source computes the longer-edge bound with
`int(...)` truncation (line 117), not rounding: for `shortest_edge = 384`
the exact value is `1333/800 * 384 = 639.84`, so the code's bound is `639`
while the claimed `round` gives `640`. -/
theorem C1_counterexample :
    longerEdge 384 = 639 ∧
    specRound ((MAX_LONGER_EDGE : ℚ) / (MAX_SHORTER_EDGE : ℚ) * (384 : ℚ)) = 640 ∧
    (639 : ℤ) ≠ 640 := by
  refine ⟨?_, ?_, by decide⟩
  · unfold longerEdge
    rw [pyInt_eq_floor]
    rw [show ((384 : ℕ) : ℚ) = (384 : ℚ) by norm_num]
    rw [Int.floor_eq_iff] <;> norm_num [MAX_LONGER_EDGE, MAX_SHORTER_EDGE]
  · unfold specRound
    rw [Int.floor_eq_iff] <;> norm_num [MAX_LONGER_EDGE, MAX_SHORTER_EDGE]

/-- C1 (amended).  For every shortest-edge target `S`, the longer-edge
bound of source line 117 is the truncation (floor) of
`MAX_LONGER_EDGE / MAX_SHORTER_EDGE * S`, not its rounding; it never
exceeds the claimed rounded value and falls short of it by at most one
(for `S = 384` it is `639`, see `C1_counterexample`). -/
theorem C1_longer_edge_truncates (S : ℕ) :
    (longerEdge S : ℚ) ≤ (MAX_LONGER_EDGE : ℚ) / (MAX_SHORTER_EDGE : ℚ) * (S : ℚ) ∧
    (MAX_LONGER_EDGE : ℚ) / (MAX_SHORTER_EDGE : ℚ) * (S : ℚ) < (longerEdge S : ℚ) + 1 ∧
    longerEdge S ≤ specRound ((MAX_LONGER_EDGE : ℚ) / (MAX_SHORTER_EDGE : ℚ) * (S : ℚ)) ∧
    specRound ((MAX_LONGER_EDGE : ℚ) / (MAX_SHORTER_EDGE : ℚ) * (S : ℚ)) ≤ longerEdge S + 1 := by
  unfold longerEdge specRound
  rw [pyInt_eq_floor]
  set x : ℚ := (MAX_LONGER_EDGE : ℚ) / (MAX_SHORTER_EDGE : ℚ) * (S : ℚ) with hx
  refine ⟨Int.floor_le x, ?_, Int.floor_le_floor (by linarith), ?_⟩
  · exact_mod_cast Int.lt_floor_add_one x
  · calc ⌊x + 1/2⌋ ≤ ⌊x + ((1 : ℤ) : ℚ)⌋ := Int.floor_le_floor (by push_cast; linarith)
      _ = ⌊x⌋ + 1 := Int.floor_add_int x 1

/-- C3.  With `do_resize` on, `shortest_edge = S` and `size_divisor = d`
set, both output dimensions of the resize step (source lines 117-141) are
non-negative multiples of `d`, and the larger one never exceeds
`round(1333/800 * S)` (so in particular it stays within the claimed
1-pixel rounding tolerance of that bound). -/
theorem C3_resize_bounds (S d h w : ℕ) (hS : 0 < S) (hd : 0 < d)
    (hh : 0 < h) (hw : 0 < w) :
    0 ≤ (resizeOutputSize S (some d) h w).1 ∧
    0 ≤ (resizeOutputSize S (some d) h w).2 ∧
    (d : ℤ) ∣ (resizeOutputSize S (some d) h w).1 ∧
    (d : ℤ) ∣ (resizeOutputSize S (some d) h w).2 ∧
    max (resizeOutputSize S (some d) h w).1 (resizeOutputSize S (some d) h w).2
      ≤ specRound ((MAX_LONGER_EDGE : ℚ) / (MAX_SHORTER_EDGE : ℚ) * (S : ℚ)) := by
  obtain ⟨h1, h2, hb1, hb2⟩ := roundedDims_bounds S h w
  have hLR := longerEdge_le_specRound S
  refine ⟨divisorFloor_nonneg h1, divisorFloor_nonneg h2,
    dvd_divisorFloor _ _, dvd_divisorFloor _ _, max_le ?_ ?_⟩
  · exact le_trans (divisorFloor_le hd h1) (le_trans hb1 hLR)
  · exact le_trans (divisorFloor_le hd h2) (le_trans hb2 hLR)

theorem C3_witness :
    0 < 384 ∧ 0 < 32 ∧ 0 < 200 ∧ 0 < 300 ∧
    (0 ≤ (resizeOutputSize 384 (some 32) 200 300).1 ∧
     0 ≤ (resizeOutputSize 384 (some 32) 200 300).2 ∧
     (32 : ℤ) ∣ (resizeOutputSize 384 (some 32) 200 300).1 ∧
     (32 : ℤ) ∣ (resizeOutputSize 384 (some 32) 200 300).2 ∧
     max (resizeOutputSize 384 (some 32) 200 300).1 (resizeOutputSize 384 (some 32) 200 300).2
       ≤ specRound ((MAX_LONGER_EDGE : ℚ) / (MAX_SHORTER_EDGE : ℚ) * ((384 : ℕ) : ℚ))) :=
  ⟨by decide, by decide, by decide, by decide,
   C3_resize_bounds 384 32 200 300 (by decide) (by decide) (by decide) (by decide)⟩

/-- C4.  When `size_divisor = d` is set, the resize step first rounds each
dimension via add-0.5-then-truncate (`roundedDims`, source lines 136-137)
and then floors it to a multiple of `d` by integer division followed by
multiplication (lines 139-141); the flooring never increases a dimension,
and both outputs are multiples of `d`. -/
theorem C4_divisor_alignment (S d h w : ℕ) (hd : 0 < d) :
    resizeOutputSize S (some d) h w =
      (divisorFloor d (pyInt ((clampDims (longerEdge S) (targetDims S h w)).1 + 1/2)),
       divisorFloor d (pyInt ((clampDims (longerEdge S) (targetDims S h w)).2 + 1/2))) ∧
    (resizeOutputSize S (some d) h w).1 ≤ (roundedDims S h w).1 ∧
    (resizeOutputSize S (some d) h w).2 ≤ (roundedDims S h w).2 ∧
    (d : ℤ) ∣ (resizeOutputSize S (some d) h w).1 ∧
    (d : ℤ) ∣ (resizeOutputSize S (some d) h w).2 := by
  obtain ⟨h1, h2, _, _⟩ := roundedDims_bounds S h w
  exact ⟨rfl, divisorFloor_le hd h1, divisorFloor_le hd h2,
    dvd_divisorFloor _ _, dvd_divisorFloor _ _⟩

theorem C4_witness :
    0 < 32 ∧
    (resizeOutputSize 384 (some 32) 200 300 =
      (divisorFloor 32 (pyInt ((clampDims (longerEdge 384) (targetDims 384 200 300)).1 + 1/2)),
       divisorFloor 32 (pyInt ((clampDims (longerEdge 384) (targetDims 384 200 300)).2 + 1/2))) ∧
     (resizeOutputSize 384 (some 32) 200 300).1 ≤ (roundedDims 384 200 300).1 ∧
     (resizeOutputSize 384 (some 32) 200 300).2 ≤ (roundedDims 384 200 300).2 ∧
     (32 : ℤ) ∣ (resizeOutputSize 384 (some 32) 200 300).1 ∧
     (32 : ℤ) ∣ (resizeOutputSize 384 (some 32) 200 300).2) :=
  ⟨by decide, C4_divisor_alignment 384 32 200 300 (by decide)⟩

/-- C5.  The pre-clamp target of source lines 123-128: for `h < w` the new
height is exactly `shortest_edge` and the new width is `w * S / h`;
otherwise the new width is exactly `shortest_edge` and the new height is
`h * S / w`; in particular for `h = w` the else branch applies, holding the
width at `shortest_edge` and scaling the height. -/
theorem C5_aspect_branch (S h w : ℕ) (hh : 0 < h) (hw : 0 < w) :
    (h < w → targetDims S h w = ((S : ℚ), (w : ℚ) * (S : ℚ) / (h : ℚ))) ∧
    (¬ h < w → targetDims S h w = ((h : ℚ) * (S : ℚ) / (w : ℚ), (S : ℚ))) ∧
    (h = w → (targetDims S h w).1 = (h : ℚ) * ((S : ℚ) / (w : ℚ)) ∧
      (targetDims S h w).2 = (S : ℚ)) := by
  refine ⟨fun hlt => ?_, fun hge => ?_, fun heq => ?_⟩
  · unfold targetDims
    rw [if_pos hlt, mul_div_assoc]
  · unfold targetDims
    rw [if_neg hge, mul_div_assoc]
  · have hge : ¬ h < w := by omega
    unfold targetDims
    rw [if_neg hge]
    exact ⟨rfl, rfl⟩

theorem C5_witness :
    0 < 100 ∧ 0 < 100 ∧
    ((100 < 100 → targetDims 384 100 100 = ((384 : ℚ), (100 : ℚ) * (384 : ℚ) / (100 : ℚ))) ∧
     (¬ 100 < 100 →
       targetDims 384 100 100 = ((100 : ℚ) * (384 : ℚ) / (100 : ℚ), (384 : ℚ))) ∧
     (100 = 100 → (targetDims 384 100 100).1 = (100 : ℚ) * ((384 : ℚ) / (100 : ℚ)) ∧
       (targetDims 384 100 100).2 = (384 : ℚ))) :=
  ⟨by decide, by decide, C5_aspect_branch 384 100 100 (by decide) (by decide)⟩

theorem resize_zero_shortest_eval (h w : ℕ) :
    resizeOutputSize 0 (some 32) h w = (0, 0) := by
  show (divisorFloor 32 (roundedDims 0 h w).1,
    divisorFloor 32 (roundedDims 0 h w).2) = (0, 0)
  rw [roundedDims_zero]
  decide

theorem resize_divisor_collapse_eval :
    resizeOutputSize 20 (some 32) 100 100 = (0, 0) := by
  show (divisorFloor 32 (roundedDims 20 100 100).1,
    divisorFloor 32 (roundedDims 20 100 100).2) = (0, 0)
  have ht : targetDims 20 100 100 = (20, 20) := by
    unfold targetDims
    norm_num
  have hL : longerEdge 20 = 33 := by
    unfold longerEdge
    rw [pyInt_eq_floor]
    rw [show ((20 : ℕ) : ℚ) = (20 : ℚ) by norm_num]
    rw [Int.floor_eq_iff] <;> norm_num [MAX_LONGER_EDGE, MAX_SHORTER_EDGE]
  have hc : clampDims 33 ((20 : ℚ), (20 : ℚ)) = (20, 20) := by
    unfold clampDims
    norm_num
  have hr : roundedDims 20 100 100 = (20, 20) := by
    unfold roundedDims
    rw [hL, ht, hc]
    show (pyInt ((20 : ℚ) + 1/2), pyInt ((20 : ℚ) + 1/2)) = (20, 20)
    rw [show pyInt ((20 : ℚ) + 1/2) = 20 by
      rw [pyInt_eq_floor]; rw [Int.floor_eq_iff] <;> norm_num]
  rw [hr]
  decide

/-- C10 counterexample.  With `shortest_edge = 0` the resize-dimension
computation of source lines 117-141 raises no configuration error: it
proceeds and yields the zero-size output `(0, 0)`; likewise a
`size_divisor` whose flooring collapses a dimension (here `S = 20`,
`d = 32` on a 100x100 image) silently yields `(0, 0)` instead of failing. -/
theorem C10_counterexample :
    resizeOutputSize 0 (some 32) 200 300 = (0, 0) ∧
    resizeOutputSize 20 (some 32) 100 100 = (0, 0) :=
  ⟨resize_zero_shortest_eval 200 300, resize_divisor_collapse_eval⟩

/-- C10 (amended).  The code performs no configuration validation: a zero
`shortest_edge` makes the resize computation proceed to the zero-size
output `(0, 0)` for every input shape, and a `size_divisor` whose flooring
collapses a dimension likewise proceeds to a zero-size output, with no
error raised before the resize primitive is invoked. -/
theorem C10_no_config_validation (h w : ℕ) :
    resizeOutputSize 0 (some 32) h w = (0, 0) ∧
    resizeOutputSize 20 (some 32) 100 100 = (0, 0) :=
  ⟨resize_zero_shortest_eval h w, resize_divisor_collapse_eval⟩

/-- Image tensor, modelled by its shape `(channels, height, width)` and a
pixel function over (channel, row, column); `_preprocess` reads only
`shape[-2:]` and the pixel contents. -/
structure Image where
  channels : ℕ
  height : ℕ
  width : ℕ
  pixel : ℕ → ℕ → ℕ → ℚ

instance : Inhabited Image := ⟨⟨0, 0, 0, fun _ _ _ => 0⟩⟩

/-- Pixel-mask tensor (source lines 189-193): an integer grid of shape
`max_size`. -/
structure Mask where
  height : ℕ
  width : ℕ
  val : ℕ → ℕ → ℕ

/-- Modelled from the spec: `get_max_height_width` is imported from
`image_processing_utils_fast` and is not among the sources; spec section
4.4 step 1 defines it as the per-axis maximum over the batch. -/
def get_max_height_width (images : List Image) : ℕ × ℕ :=
  (images.foldr (fun img m => max img.height m) 0,
   images.foldr (fun img m => max img.width m) 0)

/-- Modelled from the spec: `F.pad(image, [0, 0, padding_right, padding_bottom], fill=0)`
is an external torchvision primitive; spec section 4.4 step 2 describes it
as bottom/right padding with fill value 0. -/
def padImage (img : Image) (H W : ℕ) : Image :=
  { channels := img.channels, height := H, width := W,
    pixel := fun c r col =>
      if r < img.height ∧ col < img.width then img.pixel c r col else 0 }

/-- Source lines 190-191: the zero `mask_template` of shape `max_size` is
cloned and its `[:original_height, :original_width]` region filled with 1. -/
def maskFromTemplate (H W h0 w0 : ℕ) : Mask :=
  { height := H, width := W,
    val := fun r c => if r < h0 ∧ c < w0 then 1 else 0 }

/-- Source line 193: `torch.ones(max_size, dtype=torch.int64, ...)`. -/
def onesMask (H W : ℕ) : Mask :=
  { height := H, width := W, val := fun _ _ => 1 }

/-- Failure mode of the padding loop: `mask_template` is referenced at
source line 190 without having been assigned (it is only assigned at lines
171-173 when `return_tensors == "pt"` and the batch is non-empty), which
Python raises as an unbound-local-name error. -/
inductive PreprocessError where
  | unboundLocalMaskTemplate

/-- Source lines 175-196, loop body: pad one image to `max_size` and build
its pixel mask.  `maskTemplateBound` records whether the local name
`mask_template` was assigned by lines 171-173. -/
def padStep (maxH maxW : ℕ) (maskTemplateBound : Bool) (image : Image) :
    Except PreprocessError (Image × Mask) :=
  if image.height ≠ maxH ∨ image.width ≠ maxW then
    if maskTemplateBound then
      .ok (padImage image maxH maxW,
        maskFromTemplate maxH maxW image.height image.width)
    else
      .error .unboundLocalMaskTemplate
  else
    .ok (image, onesMask maxH maxW)

/-- Source lines 175-196: the padding loop, accumulating `padded_images`
and `pixel_masks` in input order. -/
def padLoop (maxH maxW : ℕ) (maskTemplateBound : Bool) :
    List Image → Except PreprocessError (List Image × List Mask)
  | [] => .ok ([], [])
  | image :: rest =>
    match padStep maxH maxW maskTemplateBound image with
    | .error e => .error e
    | .ok p =>
      match padLoop maxH maxW maskTemplateBound rest with
      | .error e => .error e
      | .ok pr => .ok (p.1 :: pr.1, p.2 :: pr.2)

/-- Source lines 166-196: the whole padding phase executed when `do_pad`
holds, including the conditional creation of `mask_template`
(lines 171-173). -/
def padPhase (return_tensors : Option String) (processed_images : List Image) :
    Except PreprocessError (List Image × List Mask) :=
  let max_size := get_max_height_width processed_images
  let maskTemplateBound :=
    decide (return_tensors = some "pt") && decide (0 < processed_images.length)
  padLoop max_size.1 max_size.2 maskTemplateBound processed_images

/-- C2.  For an image of original size `(h0, w0)` handled by the padding
loop with batch maximum `(H, W)`, `H >= h0`, `W >= w0`: on success the
padded image and the mask both have spatial shape `(H, W)`, and the mask is
1 exactly at positions `(r, c)` with `r < h0` and `c < w0`, 0 elsewhere
(source lines 175-196). -/
theorem C2_mask_exactness (H W : ℕ) (b : Bool) (img : Image) (res : Image × Mask)
    (hH : img.height ≤ H) (hW : img.width ≤ W)
    (hok : padStep H W b img = .ok res) :
    res.1.height = H ∧ res.1.width = W ∧
    res.2.height = H ∧ res.2.width = W ∧
    (∀ r c, r < H → c < W →
      res.2.val r c = if r < img.height ∧ c < img.width then 1 else 0) := by
  unfold padStep at hok
  by_cases hcond : img.height ≠ H ∨ img.width ≠ W
  · rw [if_pos hcond] at hok
    cases b with
    | false => simp at hok
    | true =>
      rw [if_pos rfl] at hok
      rw [Except.ok.injEq] at hok
      subst hok
      exact ⟨rfl, rfl, rfl, rfl, fun r c _ _ => rfl⟩
  · rw [if_neg hcond] at hok
    rw [Except.ok.injEq] at hok
    subst hok
    push_neg at hcond
    obtain ⟨hh, hw⟩ := hcond
    refine ⟨hh, hw, rfl, rfl, fun r c hr hc => ?_⟩
    rw [if_pos ⟨lt_of_lt_of_le hr (le_of_eq hh.symm), lt_of_lt_of_le hc (le_of_eq hw.symm)⟩]
    rfl

/-- Concrete 3-channel test images used by the witnesses. -/
def testImageA : Image :=
  { channels := 3, height := 2, width := 2, pixel := fun _ _ _ => 0 }

def testImageB : Image :=
  { channels := 3, height := 2, width := 3, pixel := fun _ _ _ => 0 }

theorem C2_witness :
    testImageA.height ≤ 3 ∧ testImageA.width ≤ 3 ∧
    ((padImage testImageA 3 3).height = 3 ∧ (padImage testImageA 3 3).width = 3 ∧
     (maskFromTemplate 3 3 testImageA.height testImageA.width).height = 3 ∧
     (maskFromTemplate 3 3 testImageA.height testImageA.width).width = 3 ∧
     (∀ r c, r < 3 → c < 3 →
       (maskFromTemplate 3 3 testImageA.height testImageA.width).val r c =
         if r < testImageA.height ∧ c < testImageA.width then 1 else 0)) :=
  ⟨by decide, by decide,
   C2_mask_exactness 3 3 true testImageA
     (padImage testImageA 3 3, maskFromTemplate 3 3 testImageA.height testImageA.width)
     (by decide) (by decide) rfl⟩

theorem padLoop_all_max (maxH maxW : ℕ) (b : Bool) :
    ∀ imgs : List Image,
      (∀ img ∈ imgs, img.height = maxH ∧ img.width = maxW) →
      padLoop maxH maxW b imgs = .ok (imgs, imgs.map fun _ => onesMask maxH maxW)
  | [], _ => rfl
  | img :: rest, h => by
    have himg := h img (List.mem_cons_self img rest)
    have hstep : padStep maxH maxW b img = .ok (img, onesMask maxH maxW) := by
      unfold padStep
      rw [if_neg (not_or.mpr ⟨not_not_intro himg.1, not_not_intro himg.2⟩)]
    have htail := padLoop_all_max maxH maxW b rest
      (fun i hi => h i (List.mem_cons_of_mem _ hi))
    unfold padLoop
    rw [hstep, htail]
    rfl

/-- C9.  When every image in the batch already has the per-batch maximum
size, the padding phase is a no-op on pixel values (each image is returned
unpadded, via the else branch of source lines 192-193) and every produced
mask is an all-ones mask of the maximum size. -/
theorem C9_padding_noop (return_tensors : Option String) (imgs : List Image)
    (h : imgs.all (fun img =>
      (img.height == (get_max_height_width imgs).1) &&
      (img.width == (get_max_height_width imgs).2)) = true) :
    padPhase return_tensors imgs =
      .ok (imgs, imgs.map fun _ =>
        onesMask (get_max_height_width imgs).1 (get_max_height_width imgs).2) := by
  have h' : ∀ img ∈ imgs, img.height = (get_max_height_width imgs).1 ∧
      img.width = (get_max_height_width imgs).2 := by
    intro img hm
    have hb := List.all_eq_true.mp h img hm
    rw [Bool.and_eq_true, beq_iff_eq, beq_iff_eq] at hb
    exact hb
  exact padLoop_all_max (get_max_height_width imgs).1 (get_max_height_width imgs).2
    (decide (return_tensors = some "pt") && decide (0 < imgs.length)) imgs h'

theorem C9_witness :
    ([testImageA, testImageA].all (fun img =>
      (img.height == (get_max_height_width [testImageA, testImageA]).1) &&
      (img.width == (get_max_height_width [testImageA, testImageA]).2)) = true) ∧
    padPhase none [testImageA, testImageA] =
      .ok ([testImageA, testImageA], [testImageA, testImageA].map fun _ =>
        onesMask (get_max_height_width [testImageA, testImageA]).1
          (get_max_height_width [testImageA, testImageA]).2) :=
  ⟨by decide, C9_padding_noop none [testImageA, testImageA] (by decide)⟩

/-- Values stored in the returned `data` dictionary: lists of images or
masks, either kept as Python lists or stacked into one tensor by
`torch.stack` (source lines 199-201 and 208). -/
inductive DataValue where
  | imagesList : List Image → DataValue
  | imagesStacked : List Image → DataValue
  | masksList : List Mask → DataValue
  | masksStacked : List Mask → DataValue

/-- Source lines 164-213: the output-assembly tail of `_preprocess`, from
`data = {}` to the final `BatchFeature(data=...)`.  When `do_pad` holds the
padding phase runs and `data` receives `pixel_values` and `pixel_mask`
(lines 203-204); otherwise only `pixel_values` is set (line 211), stacked
exactly when `return_tensors == "pt"` (lines 198-201 and 206-208). -/
def assembleOutput (do_pad : Bool) (return_tensors : Option String)
    (processed_images : List Image) :
    Except PreprocessError (List (String × DataValue)) :=
  if do_pad then
    match padPhase return_tensors processed_images with
    | .error e => .error e
    | .ok pm =>
      if return_tensors = some "pt" then
        .ok [("pixel_values", .imagesStacked pm.1), ("pixel_mask", .masksStacked pm.2)]
      else
        .ok [("pixel_values", .imagesList pm.1), ("pixel_mask", .masksList pm.2)]
  else
    if return_tensors = some "pt" then
      .ok [("pixel_values", .imagesStacked processed_images)]
    else
      .ok [("pixel_values", .imagesList processed_images)]

theorem padLoop_unbound (maxH maxW : ℕ) :
    ∀ imgs : List Image,
      (∃ img ∈ imgs, img.height ≠ maxH ∨ img.width ≠ maxW) →
      padLoop maxH maxW false imgs = .error .unboundLocalMaskTemplate
  | [], h => absurd h (by simp)
  | img :: rest, h => by
    by_cases hc : img.height ≠ maxH ∨ img.width ≠ maxW
    · have hstep : padStep maxH maxW false img = .error .unboundLocalMaskTemplate := by
        unfold padStep
        rw [if_pos hc]
        rfl
      unfold padLoop
      rw [hstep]
    · have hstep : padStep maxH maxW false img = .ok (img, onesMask maxH maxW) := by
        unfold padStep
        rw [if_neg hc]
      have hex : ∃ i ∈ rest, i.height ≠ maxH ∨ i.width ≠ maxW := by
        rcases h with ⟨i, hi, hio⟩
        rcases List.mem_cons.mp hi with rfl | hi'
        · exact absurd hio hc
        · exact ⟨i, hi', hio⟩
      have htail := padLoop_unbound maxH maxW rest hex
      unfold padLoop
      rw [hstep, htail]

/-- C6.  With `do_pad` true, `return_tensors` different from `"pt"`, and at
least one image whose size differs from the batch maximum, the padding
phase hits the unassigned `mask_template` local (source line 190, assigned
only at lines 171-173 under `return_tensors == "pt"`) and fails with an
unbound-local-name error instead of producing padded images and masks. -/
theorem C6_unbound_mask_template (return_tensors : Option String)
    (imgs : List Image)
    (hrt : return_tensors ≠ some "pt")
    (hneq : imgs.any (fun img =>
      (!(img.height == (get_max_height_width imgs).1)) ||
      (!(img.width == (get_max_height_width imgs).2))) = true) :
    assembleOutput true return_tensors imgs = .error .unboundLocalMaskTemplate := by
  have hb : decide (return_tensors = some "pt") = false := decide_eq_false hrt
  have hex : ∃ img ∈ imgs, img.height ≠ (get_max_height_width imgs).1 ∨
      img.width ≠ (get_max_height_width imgs).2 := by
    rcases List.any_eq_true.mp hneq with ⟨img, hm, hp⟩
    rw [Bool.or_eq_true, Bool.not_eq_true', Bool.not_eq_true', beq_eq_false_iff_ne,
      beq_eq_false_iff_ne] at hp
    exact ⟨img, hm, hp⟩
  have hpad : padPhase return_tensors imgs = .error .unboundLocalMaskTemplate := by
    show padLoop (get_max_height_width imgs).1 (get_max_height_width imgs).2
      (decide (return_tensors = some "pt") && decide (0 < imgs.length)) imgs =
      .error .unboundLocalMaskTemplate
    rw [hb, Bool.false_and]
    exact padLoop_unbound _ _ imgs hex
  unfold assembleOutput
  rw [hpad]
  rfl

theorem C6_witness :
    (none ≠ some "pt") ∧
    ([testImageA, testImageB].any (fun img =>
      (!(img.height == (get_max_height_width [testImageA, testImageB]).1)) ||
      (!(img.width == (get_max_height_width [testImageA, testImageB]).2))) = true) ∧
    assembleOutput true none [testImageA, testImageB] =
      .error .unboundLocalMaskTemplate :=
  ⟨by decide, by decide,
   C6_unbound_mask_template none [testImageA, testImageB] (by decide) (by decide)⟩

/-- C7.  Every successful `_preprocess` output contains the key
`pixel_values`; it contains the key `pixel_mask` exactly when `do_pad` is
true; and when padding is disabled the output is only `pixel_values`,
stacked precisely when batched tensor output (`return_tensors == "pt"`)
was requested (source lines 164-213). -/
theorem C7_output_keys (do_pad : Bool) (return_tensors : Option String)
    (imgs : List Image) (out : List (String × DataValue))
    (hok : assembleOutput do_pad return_tensors imgs = .ok out) :
    (out.lookup "pixel_values").isSome = true ∧
    ((out.lookup "pixel_mask").isSome = true ↔ do_pad = true) ∧
    (do_pad = false →
      out = [("pixel_values",
        if return_tensors = some "pt" then DataValue.imagesStacked imgs
        else DataValue.imagesList imgs)]) := by
  cases do_pad with
  | false =>
    unfold assembleOutput at hok
    rw [if_neg (by simp)] at hok
    by_cases hrt : return_tensors = some "pt"
    · rw [if_pos hrt] at hok
      rw [Except.ok.injEq] at hok
      subst hok
      refine ⟨rfl, by simp [List.lookup], fun _ => by rw [if_pos hrt]⟩
    · rw [if_neg hrt] at hok
      rw [Except.ok.injEq] at hok
      subst hok
      refine ⟨rfl, by simp [List.lookup], fun _ => by rw [if_neg hrt]⟩
  | true =>
    unfold assembleOutput at hok
    rw [if_pos rfl] at hok
    cases hpp : padPhase return_tensors imgs with
    | error e =>
      rw [hpp] at hok
      have hok2 : (Except.error e :
          Except PreprocessError (List (String × DataValue))) = .ok out := hok
      cases hok2
    | ok pm =>
      rw [hpp] at hok
      have hok2 : (if return_tensors = some "pt" then
          (Except.ok [("pixel_values", DataValue.imagesStacked pm.1),
            ("pixel_mask", DataValue.masksStacked pm.2)] :
            Except PreprocessError (List (String × DataValue)))
        else
          .ok [("pixel_values", DataValue.imagesList pm.1),
            ("pixel_mask", DataValue.masksList pm.2)]) = .ok out := hok
      by_cases hrt : return_tensors = some "pt"
      · rw [if_pos hrt, Except.ok.injEq] at hok2
        subst hok2
        exact ⟨rfl, by simp [List.lookup], fun hf => by cases hf⟩
      · rw [if_neg hrt, Except.ok.injEq] at hok2
        subst hok2
        exact ⟨rfl, by simp [List.lookup], fun hf => by cases hf⟩

theorem C7_witness :
    (assembleOutput true (some "pt") [testImageA] =
      .ok [("pixel_values", DataValue.imagesStacked [testImageA]),
        ("pixel_mask", DataValue.masksStacked [onesMask 2 2])]) ∧
    ((List.lookup "pixel_values"
        [("pixel_values", DataValue.imagesStacked [testImageA]),
         ("pixel_mask", DataValue.masksStacked [onesMask 2 2])]).isSome = true ∧
     ((List.lookup "pixel_mask"
        [("pixel_values", DataValue.imagesStacked [testImageA]),
         ("pixel_mask", DataValue.masksStacked [onesMask 2 2])]).isSome = true ↔
       true = true) ∧
     (true = false →
       [("pixel_values", DataValue.imagesStacked [testImageA]),
        ("pixel_mask", DataValue.masksStacked [onesMask 2 2])] =
       [("pixel_values",
         if (some "pt" : Option String) = some "pt" then
           DataValue.imagesStacked [testImageA]
         else DataValue.imagesList [testImageA])])) :=
  ⟨rfl,
   C7_output_keys true (some "pt") [testImageA]
     [("pixel_values", DataValue.imagesStacked [testImageA]),
      ("pixel_mask", DataValue.masksStacked [onesMask 2 2])] rfl⟩

/-- Shape key of an image: `(channels, height, width)`. -/
def imageShape (img : Image) : ℕ × ℕ × ℕ := (img.channels, img.height, img.width)

/-- Modelled from the spec: `group_images_by_shape` is imported from
`image_processing_utils_fast` and is not among the sources.  Spec section
4.1: the grouped mapping sends each shape key to the stable sub-batch of
the images of that shape, in their original relative order. -/
def grouped_images (images : List Image) (shape : ℕ × ℕ × ℕ) : List Image :=
  images.filter fun img => decide (imageShape img = shape)

/-- Modelled from the spec: the parallel index of `group_images_by_shape`,
recording for each original position its shape key and its position within
that shape's sub-batch (spec sections 3 and 4.1). -/
def grouped_images_index (images : List Image) : List ((ℕ × ℕ × ℕ) × ℕ) :=
  (List.range images.length).map fun i =>
    (imageShape (images.getD i default),
     ((images.take i).filter fun img =>
       decide (imageShape img = imageShape (images.getD i default))).length)

/-- Modelled from the spec: `reorder_images` (imported, not among the
sources) rebuilds the original order by reading, for each recorded index
entry, the image at that position of the group with that shape (spec
sections 4.1 and 4.5). -/
def reorder_images (grouped : (ℕ × ℕ × ℕ) → List Image)
    (index : List ((ℕ × ℕ × ℕ) × ℕ)) : List Image :=
  index.map fun si => (grouped si.1).getD si.2 default

theorem filter_take_getD (p : Image → Bool) :
    ∀ (l : List Image) (i : ℕ), i < l.length → p (l.getD i default) = true →
      (l.filter p).getD ((l.take i).filter p).length default = l.getD i default
  | [], i, hi, _ => absurd hi (by simp)
  | x :: xs, 0, _, hp => by
    rw [List.getD_cons_zero] at hp ⊢
    rw [List.take_zero, List.filter_cons, if_pos hp]
    rfl
  | x :: xs, i + 1, hi, hp => by
    rw [List.getD_cons_succ] at hp ⊢
    have hi' : i < xs.length := by simpa using hi
    rw [List.take_succ_cons, List.filter_cons, List.filter_cons]
    by_cases hx : p x = true
    · rw [if_pos hx, if_pos hx, List.length_cons, List.getD_cons_succ]
      exact filter_take_getD p xs i hi' hp
    · rw [if_neg hx, if_neg hx]
      exact filter_take_getD p xs i hi' hp

/-- C8.  Grouping a batch by shape and then reordering the (untransformed)
groups through the recorded index reproduces the original sequence exactly;
moreover every image belongs to the group of its own shape and only to it. -/
theorem C8_group_reorder_round_trip (images : List Image) :
    reorder_images (grouped_images images) (grouped_images_index images) = images ∧
    (∀ img ∈ images, img ∈ grouped_images images (imageShape img)) ∧
    (∀ img s, img ∈ grouped_images images s → imageShape img = s) := by
  refine ⟨?_, ?_, ?_⟩
  · unfold reorder_images grouped_images_index
    rw [List.map_map]
    apply List.ext_getElem
    · simp
    · intro n h1 h2
      have hn : n < images.length := by simpa using h2
      rw [List.getElem_map, List.getElem_range]
      have hg : images.getD n default = images[n] := List.getD_eq_getElem images default hn
      have hp : (fun img =>
          decide (imageShape img = imageShape (images.getD n default)))
          (images.getD n default) = true := decide_eq_true rfl
      have key := filter_take_getD
        (fun img => decide (imageShape img = imageShape (images.getD n default)))
        images n hn hp
      simp only [Function.comp_apply]
      unfold grouped_images
      rw [key]
      exact hg
  · intro img hm
    unfold grouped_images
    exact List.mem_filter.mpr ⟨hm, decide_eq_true rfl⟩
  · intro img s hm
    unfold grouped_images at hm
    exact of_decide_eq_true (List.mem_filter.mp hm).2

end ViltFast
